import Mathlib

/-!
Verification of the c2c conversation-concurrency core.

The Lean definitions below are a shallow embedding of the Python sources:
- `src/src/c2c/manager.py` (`C2CManager`): sanitisation, conversation ids,
  the response-collection loop of `query_task`, and
  `send_message_and_receive_response`'s history update.
- `src/c2c_dev.py`: the rate limiter of `send_message`, the response
  collection loop of `_send_message_internal`, and
  `end_conversation` / `_end_conversation_internal`.
- `src/src/c2c/conversation_storage.py` (`ConversationStorage`): the durable
  per-conversation records.

Modelling conventions: Python strings are Lean `String`s (character
operations such as `lower`/`isalnum` are modelled by the corresponding
ASCII-faithful Lean `Char` operations); wall-clock instants are rationals;
`datetime.now().isoformat()` timestamps are `String`s compared
lexicographically (which agrees with chronological order for the fixed-width
ISO format); the conversations directory is an association list from file
stem to file content; random `uuid` draws are explicit parameters.

File contents appear at two levels of refinement.  The coarse `Storage`
model records a file as either a well-formed conversation record or a
parse failure; it is adequate for the save/update/add-message/round-trip
properties, which only ever touch well-formed records.  The refined
`FileContent` model further distinguishes files whose bytes do not decode
as UTF-8 (reading them raises `UnicodeDecodeError`, which the source does
not catch) and files holding valid JSON of the wrong shape (they load
successfully and later crash `list_conversations`' sort); it is used for
the load/list totality analysis.
-/

namespace C2C

/-! ## Response units and the response collector

`manager.py` lines 166-188 (`query_task`) and `c2c_dev.py` lines 333-365
(`_send_message_internal`) drain `client.receive_response()` with the same
loop.  A streamed response unit optionally carries a list of content blocks
(each block optionally carrying a `text` attribute) and optionally a
`subtype` attribute. -/

/-- Truthiness of Python's `text.strip()`: the string contains at least one
non-whitespace character.  This is the test `if text.strip():` and
`if message and message.strip():` in the sources. -/
def hasVisibleText (s : String) : Bool :=
  s.data.any (fun c => !c.isWhitespace)

/-- One element of the backend's streamed reply.  `content` is `some blocks`
when the unit has a `content` attribute that is a list; a block is `some s`
when it has a `text` attribute whose value renders as the string `s`
(`str(block.text) if block.text else ""`).  `subtype` is the optional
`subtype` attribute. -/
structure ResponseUnit where
  content : Option (List (Option String))
  subtype : Option String
deriving DecidableEq, Repr

/-- The texts a unit contributes to `response_parts`: for each block with a
`text` attribute, the text is appended exactly when `text.strip()` is
truthy. -/
def unitTexts (u : ResponseUnit) : List String :=
  match u.content with
  | none => []
  | some blocks =>
    blocks.filterMap fun b =>
      match b with
      | none => none
      | some s => if hasVisibleText s then some s else none

/-- The check `hasattr(response_message, 'subtype') and
response_message.subtype in ['success', 'error']`. -/
def isTerminal (u : ResponseUnit) : Bool :=
  match u.subtype with
  | none => false
  | some s => s == "success" || s == "error"

/-- Whether draining this unit sets `response_complete`. -/
def hasContent (u : ResponseUnit) : Bool :=
  !(unitTexts u).isEmpty

/-- The drain loop of `query_task` / `_send_message_internal`: returns the
accumulated `response_parts` together with the final `message_count`.
Each iteration increments the count, appends the unit's qualifying texts,
then breaks on a terminal subtype, and otherwise breaks once content has
been seen or ten units have been drained (`max_messages = 10`). -/
def collectLoop : List ResponseUnit → Nat → List String → Bool → List String × Nat
  | [], message_count, response_parts, _ => (response_parts, message_count)
  | u :: rest, message_count, response_parts, response_complete =>
    let count' := message_count + 1
    let parts' := response_parts ++ unitTexts u
    let complete' := response_complete || hasContent u
    if isTerminal u then (parts', count')
    else if complete' = true ∨ 10 ≤ count' then (parts', count')
    else collectLoop rest count' parts' complete'

/-- Response collection as in `manager.py`: `"".join(response_parts)`. -/
def collectResponse (stream : List ResponseUnit) : String :=
  String.join (collectLoop stream 0 [] false).1

/-- Response collection as in `c2c_dev.py`: `"\n".join(response_parts)`. -/
def collectResponseDev (stream : List ResponseUnit) : String :=
  String.intercalate "\n" (collectLoop stream 0 [] false).1

/-- Number of units the collector drains from a stream. -/
def unitsDrained (stream : List ResponseUnit) : Nat :=
  (collectLoop stream 0 [] false).2

/-- A unit carrying a single text block and no terminal marker. -/
def textUnit (s : String) : ResponseUnit :=
  ⟨some [some s], none⟩

/-- A unit carrying only a terminal status marker. -/
def terminalUnit (tag : String) : ResponseUnit :=
  ⟨none, some tag⟩

/-- A unit with neither text content nor a terminal marker. -/
def plainUnit : ResponseUnit :=
  ⟨none, none⟩

/-! ## Identifier sanitisation and generation

`manager.py` line 80: `"".join(c if c.isalnum() or c == "-" else "-" for c
in task_name.lower()).strip("-")`, and lines 96-97: `conversation_id =
f"conv_{sanitised_name}_{uuid.uuid4().hex[:8]}"`. -/

/-- The per-character mapping `c if c.isalnum() or c == "-" else "-"`. -/
def sanitiseChar (c : Char) : Char :=
  if c.isAlphanum || c == '-' then c else '-'

/-- Python's `.strip("-")` on a character list: drop `'-'` from both ends. -/
def stripDash (l : List Char) : List Char :=
  ((l.dropWhile (· == '-')).reverse.dropWhile (· == '-')).reverse

/-- `C2CManager._sanitise_task_name`: lower-case the name, replace every
character that is neither alphanumeric nor `'-'` by `'-'`, then strip
leading and trailing `'-'`. -/
def sanitiseTaskName (task_name : String) : String :=
  String.mk (stripDash (task_name.data.map (fun c => sanitiseChar c.toLower)))

/-- The conversation identifier built by `C2CManager.create_conversation`,
with the 8-character draw `uuid.uuid4().hex[:8]` passed explicitly. -/
def conversation_id (task_name : String) (uuid8 : String) : String :=
  "conv_" ++ sanitiseTaskName task_name ++ "_" ++ uuid8

/-- The identifiers returned by a run of successive `create` calls, one
random draw per call.  The code consults no registry and performs no
collision retry: each identifier is a pure function of its own name and
draw. -/
def create_ids (task_names : List String) (uuid8s : List String) : List String :=
  (task_names.zip uuid8s).map fun p => conversation_id p.1 p.2

/-- Whether a string contains two adjacent separator characters, i.e. a
non-collapsed separator run. -/
def hasSeparatorRun (s : String) : Bool :=
  (s.data.zip s.data.tail).any fun p => p.1 == '-' && p.2 == '-'

/-! ## Rate limiter

`c2c_dev.py` lines 31-33 and 299-314: before dispatching
`_send_message_internal`, `send_message` reads the event-loop clock, takes
the conversation's last recorded send time (defaulting to `0`), sleeps for
`MIN_MESSAGE_INTERVAL - elapsed` when the elapsed time is below the
minimum, and only after the internal send completes stores the new clock
reading in `message_timestamps[session_id]`.  Clock instants are modelled
as rationals and the duration of the internal send is an explicit
parameter. -/

/-- The constant `MIN_MESSAGE_INTERVAL = 2.0` of `c2c_dev.py`. -/
def MIN_MESSAGE_INTERVAL : ℚ := 2

/-- The sleep performed by the rate-limiting gate of `send_message`:
`message_timestamps.get(session_id, 0)` and, when
`current_time - last_message_time < MIN_MESSAGE_INTERVAL`, a sleep of
exactly the deficit. -/
def rateLimitWait (message_timestamps : String → Option ℚ) (session_id : String)
    (current_time : ℚ) : ℚ :=
  let last_message_time := (message_timestamps session_id).getD 0
  if current_time - last_message_time < MIN_MESSAGE_INTERVAL then
    MIN_MESSAGE_INTERVAL - (current_time - last_message_time)
  else 0

/-- The timing behaviour of one successful `send_message` call: the backend
submission happens after the gate's sleep, and the timestamp map records
the clock reading taken after the internal send (of duration
`send_duration`) returns.  Yields the submission instant and the updated
timestamp map. -/
def send_message_timing (message_timestamps : String → Option ℚ) (session_id : String)
    (current_time send_duration : ℚ) : ℚ × (String → Option ℚ) :=
  let wait := rateLimitWait message_timestamps session_id current_time
  let submit_time := current_time + wait
  let finish_time := submit_time + send_duration
  (submit_time, fun s => if s = session_id then some finish_time else message_timestamps s)

/-! ## Association-list state

Both the in-memory registries (`self.active`, `active_sessions`) and the
conversations directory are finite string-keyed maps; they are modelled as
association lists.  `setEntry` is the write operation: it replaces the
value at an existing key and otherwise appends a fresh entry, mirroring
both dictionary assignment and `open(file, 'w')`. -/

/-- Write `val` at `key`: replace the first existing entry, else append. -/
def setEntry {β : Type} : List (String × β) → String → β → List (String × β)
  | [], key, val => [(key, val)]
  | (k, v) :: rest, key, val =>
    if k == key then (k, val) :: rest else (k, v) :: setEntry rest key val

/-! ## Manager history update

`manager.py` lines 138-209 (`send_message_and_receive_response`): reject an
unknown conversation id, run the query task on the worker (its outcome —
the collected response or a raised exception — is the `backend` parameter),
and only after a successful outcome append the user turn (skipped when
`message and message.strip()` is falsy) followed by the assistant turn. -/

/-- One entry of a conversation's in-memory `history` list. -/
structure HistoryEntry where
  role : String
  content : String
  timestamp : String
deriving DecidableEq, Repr

/-- The per-conversation record held in `C2CManager.active`. -/
structure ManagerConversation where
  task_name : String
  task_description : String
  history : List HistoryEntry
  status : String
deriving DecidableEq, Repr

/-- State transition of `send_message_and_receive_response` on the `active`
map: returns the new map and the call's outcome. -/
def send_message_and_receive_response
    (active : List (String × ManagerConversation)) (conv_id message : String)
    (backend : Except String String) (ts_user ts_agent : String) :
    List (String × ManagerConversation) × Except String String :=
  match active.lookup conv_id with
  | none => (active, Except.error ("Conversation " ++ conv_id ++ " not found or not active"))
  | some conversation =>
    match backend with
    | Except.error e => (active, Except.error e)
    | Except.ok response =>
      let history₁ :=
        if hasVisibleText message then
          conversation.history ++ [⟨"user", message, ts_user⟩]
        else conversation.history
      let history₂ := history₁ ++ [⟨"assistant", response, ts_agent⟩]
      (setEntry active conv_id
        ⟨conversation.task_name, conversation.task_description, history₂, conversation.status⟩,
       Except.ok response)

/-! ## Ending a conversation in c2c_dev

`c2c_dev.py` lines 405-447.  `end_conversation` rejects an unknown session,
then runs `_end_conversation_internal` under `asyncio.wait_for(..., timeout=10)`.
The internal function awaits `client.disconnect()`; what happens at that
await is the `DisconnectOutcome` parameter:
- `ok`: disconnect returns in time; the session is deleted from
  `active_sessions` and `True` is returned.
- `raises`: disconnect raises an ordinary `Exception`; the
  `except Exception` clause force-deletes the session and re-raises.
- `hangs`: disconnect blocks past the 10-second bound; `wait_for` cancels
  the task by raising `asyncio.CancelledError` at the await.
  `CancelledError` derives from `BaseException`, not `Exception`, so the
  `except Exception` force-cleanup clause does not run and the session
  stays in `active_sessions`; the caller sees the timeout error. -/

/-- What happens at the `await client.disconnect()` suspension point. -/
inductive DisconnectOutcome where
  | ok
  | raises
  | hangs
deriving DecidableEq, Repr

/-- State transition of `end_conversation` on the set of active session
ids: returns the new registry and the call's outcome. -/
def end_conversation (active_sessions : List String) (session_id : String)
    (outcome : DisconnectOutcome) : List String × Except String Bool :=
  if session_id ∈ active_sessions then
    match outcome with
    | DisconnectOutcome.ok =>
      (active_sessions.erase session_id, Except.ok true)
    | DisconnectOutcome.raises =>
      (active_sessions.erase session_id, Except.error "Failed to end conversation")
    | DisconnectOutcome.hangs =>
      (active_sessions, Except.error "Conversation ending timed out after 10 seconds")
  else (active_sessions, Except.error ("Session not found: " ++ session_id))

/-! ## Persistent conversation storage

`src/src/c2c/conversation_storage.py`.  One file per conversation, named by
the conversation id; each mutation rewrites the record in full.  In this
coarse model a file's content is its parse outcome: `Except.ok` for a
well-formed record, `Except.error` for a file whose text fails to parse as
JSON.  Undecodable bytes and valid-JSON-wrong-shape contents, which the
write paths below never produce, are treated in the refined `FileContent`
model further down. -/

/-- The `ConversationMetadata` dataclass. -/
structure ConversationMetadata where
  conversation_id : String
  session_id : String
  created_at : String
  last_updated : String
  message_count : Nat
  initial_task : String
  status : String
deriving DecidableEq, Repr

/-- The `ConversationMessage` dataclass. -/
structure ConversationMessage where
  role : String
  message : String
  timestamp : String
  message_id : Option String
deriving DecidableEq, Repr

/-- A stored record: `{"metadata": ..., "messages": [...]}`. -/
structure ConversationData where
  metadata : ConversationMetadata
  messages : List ConversationMessage
deriving DecidableEq, Repr

/-- The conversations directory: file stem ↦ parse outcome of the file. -/
abbrev Storage : Type :=
  List (String × Except Unit ConversationData)

/-- `ConversationStorage.load_conversation` on the coarse model: `None`
when the file does not exist, `None` when its contents fail to parse as
JSON (`json.JSONDecodeError` is caught), otherwise the parsed record.
The source's `except` clause catches only `json.JSONDecodeError` and
`FileNotFoundError`; the behaviour on file contents outside this model's
two classes is captured by the refined `FS.load_conversation` below. -/
def load_conversation (st : Storage) (conv_id : String) : Option ConversationData :=
  match List.lookup conv_id st with
  | none => none
  | some (Except.error _) => none
  | some (Except.ok d) => some d

/-- `ConversationStorage.save_conversation`: generate
`conv_{uuid.uuid4().hex[:12]}` (the draw `uuid12` is explicit), build the
metadata — `created_at` is the first message's timestamp when any message
exists, else `now` — and write the full record, returning the id. -/
def save_conversation (st : Storage) (uuid12 session_id : String)
    (messages : List ConversationMessage) (initial_task status now : String) :
    String × Storage :=
  let conv_id := "conv_" ++ uuid12
  let created_at :=
    match messages.head? with
    | some m => m.timestamp
    | none => now
  let metadata : ConversationMetadata :=
    ⟨conv_id, session_id, created_at, now, messages.length, initial_task, status⟩
  (conv_id, setEntry st conv_id (Except.ok ⟨metadata, messages⟩))

/-- `ConversationStorage.update_conversation_status`: load, and on success
overwrite `status` and `last_updated` and rewrite the record. -/
def update_conversation_status (st : Storage) (conv_id status now : String) :
    Storage × Bool :=
  match load_conversation st conv_id with
  | none => (st, false)
  | some d =>
    let m := d.metadata
    let metadata : ConversationMetadata :=
      ⟨m.conversation_id, m.session_id, m.created_at, now, m.message_count,
       m.initial_task, status⟩
    (setEntry st conv_id (Except.ok ⟨metadata, d.messages⟩), true)

/-- `ConversationStorage.add_message_to_conversation`: load, append the new
message (with a fresh `msg_{uuid.uuid4().hex[:8]}` id, the draw `uuid8`
explicit), recompute `message_count` as the length of the message list,
refresh `last_updated`, flip a `"completed"` status back to `"active"`,
and rewrite the record. -/
def add_message_to_conversation (st : Storage) (conv_id role message uuid8 now : String) :
    Storage × Bool :=
  match load_conversation st conv_id with
  | none => (st, false)
  | some d =>
    let new_message : ConversationMessage := ⟨role, message, now, some ("msg_" ++ uuid8)⟩
    let messages' := d.messages ++ [new_message]
    let m := d.metadata
    let status' := if m.status == "completed" then "active" else m.status
    let metadata : ConversationMetadata :=
      ⟨m.conversation_id, m.session_id, m.created_at, now, messages'.length,
       m.initial_task, status'⟩
    (setEntry st conv_id (Except.ok ⟨metadata, messages'⟩), true)

/-- Lexicographic comparison of character lists, Python's string `<=`. -/
def charListLe : List Char → List Char → Bool
  | [], _ => true
  | _ :: _, [] => false
  | a :: as, b :: bs => if a < b then true else if a = b then charListLe as bs else false

/-- Python's `<=` on strings: lexicographic by code point. -/
def strLe (a b : String) : Bool :=
  charListLe a.data b.data

/-- Stable descending insertion step: `x` is placed after every
already-placed record whose key is at least `key x` (so records with equal
keys keep their original relative order) and before the first record whose
key is strictly smaller. -/
def insertDescBy (key : ConversationData → String) (x : ConversationData) :
    List ConversationData → List ConversationData
  | [] => [x]
  | y :: ys =>
    if strLe (key x) (key y) then y :: insertDescBy key x ys else x :: y :: ys

/-- Stable sort, descending by `key`: the function computed by Python's
stable `list.sort(key=..., reverse=True)`. -/
def sortByKeyDesc (key : ConversationData → String) (l : List ConversationData) :
    List ConversationData :=
  l.foldl (fun acc d => insertDescBy key d acc) []

/-! ## Refined file-content model

The coarse `Storage` model cannot express two content classes that exist
on a real file system: a file whose bytes do not decode as UTF-8, and a
file holding valid JSON that is not a conversation record.  On the first,
`load_conversation` raises `UnicodeDecodeError` — a `ValueError` sibling
of `json.JSONDecodeError`, not a subclass, so the `except
(json.JSONDecodeError, FileNotFoundError)` clause does not catch it.  On
the second, `json.load` succeeds and the parsed value is returned as-is;
`list_conversations` appends it when it is truthy, and the final
`conversations.sort(key=lambda x: x["metadata"]["last_updated"], ...)`
— which runs outside the per-file `try` — then raises on the key lookup.
The refined model represents all four classes. -/

/-- Content of one file in the conversations directory. -/
inductive FileContent where
  | record (d : ConversationData)
  | badShape (truthy : Bool)
  | badJson
  | badBytes
deriving DecidableEq, Repr

namespace FS

/-- The conversations directory over the refined content model. -/
abbrev Storage : Type :=
  List (String × FileContent)

/-- The Python value a successful `load_conversation` returns: the parsed
record, or — for a valid-JSON file of the wrong shape — some other parsed
value, of which only its truthiness matters downstream. -/
inductive LoadedValue where
  | record (d : ConversationData)
  | junk (truthy : Bool)
deriving DecidableEq, Repr

/-- Python truthiness of the loaded value: a well-formed record is a
non-empty dict, hence truthy. -/
def LoadedValue.pyTruthy : LoadedValue → Bool
  | LoadedValue.record _ => true
  | LoadedValue.junk t => t

/-- The record, when the loaded value has the conversation-record shape. -/
def LoadedValue.toRecord : LoadedValue → Option ConversationData
  | LoadedValue.record d => some d
  | LoadedValue.junk _ => none

/-- Whether the loaded value lacks the record shape, so that the sort key
lookup `x["metadata"]["last_updated"]` raises on it. -/
def LoadedValue.isJunk : LoadedValue → Bool
  | LoadedValue.record _ => false
  | LoadedValue.junk _ => true

/-- `ConversationStorage.load_conversation` over the refined model:
`None` for a missing file, `None` for text that fails `json.load`
(`JSONDecodeError` caught), the parsed value for anything that parses —
and an uncaught `UnicodeDecodeError` (`Except.error`) for a file whose
bytes do not decode as UTF-8. -/
def load_conversation (st : Storage) (conv_id : String) :
    Except Unit (Option LoadedValue) :=
  match List.lookup conv_id st with
  | none => Except.ok none
  | some (FileContent.record d) => Except.ok (some (LoadedValue.record d))
  | some (FileContent.badShape t) => Except.ok (some (LoadedValue.junk t))
  | some FileContent.badJson => Except.ok none
  | some FileContent.badBytes => Except.error ()

/-- The values `list_conversations` accumulates: each file is loaded
inside `try ... except Exception: continue`, so a raising load (bad bytes)
is skipped, as is a falsy result (`if conversation_data:`). -/
def loadedValues (st : Storage) : List LoadedValue :=
  st.filterMap fun e =>
    match load_conversation st e.1 with
    | Except.error _ => none
    | Except.ok none => none
    | Except.ok (some v) => if v.pyTruthy then some v else none

/-- `ConversationStorage.list_conversations` over the refined model: the
accumulated values are sorted by `x["metadata"]["last_updated"]`
descending outside the per-file `try`, so if any accumulated value lacks
the record shape the whole listing raises. -/
def list_conversations (st : Storage) : Except Unit (List ConversationData) :=
  if (loadedValues st).any LoadedValue.isJunk then Except.error ()
  else
    Except.ok (sortByKeyDesc (fun d => d.metadata.last_updated)
      ((loadedValues st).filterMap LoadedValue.toRecord))

end FS

/-! ## Helper lemmas about association-list state -/

theorem lookup_setEntry_self {β : Type} (l : List (String × β)) (key : String) (val : β) :
    List.lookup key (setEntry l key val) = some val := by
  induction l with
  | nil => simp [setEntry, List.lookup]
  | cons e rest ih =>
    obtain ⟨k, v⟩ := e
    by_cases h : k = key
    · subst h
      simp [setEntry, List.lookup]
    · have hb : (k == key) = false := beq_eq_false_iff_ne.mpr h
      have hb' : (key == k) = false := beq_eq_false_iff_ne.mpr (Ne.symm h)
      simp [setEntry, hb, hb', List.lookup, ih]

theorem lookup_setEntry_ne {β : Type} (l : List (String × β)) (key key' : String) (val : β)
    (h : key' ≠ key) :
    List.lookup key' (setEntry l key val) = List.lookup key' l := by
  induction l with
  | nil => simp [setEntry, List.lookup, beq_eq_false_iff_ne.mpr h]
  | cons e rest ih =>
    obtain ⟨k, v⟩ := e
    by_cases hk : k = key
    · subst hk
      have hb' : (key' == k) = false := beq_eq_false_iff_ne.mpr h
      simp [setEntry, List.lookup, hb']
    · have hb : (k == key) = false := beq_eq_false_iff_ne.mpr hk
      by_cases hk' : key' = k
      · subst hk'
        simp [setEntry, hb, List.lookup]
      · have hb' : (key' == k) = false := beq_eq_false_iff_ne.mpr hk'
        simp [setEntry, hb, List.lookup, hb', ih]

theorem mem_of_lookup_eq_some {β : Type} {l : List (String × β)} {k : String} {v : β}
    (h : List.lookup k l = some v) : (k, v) ∈ l := by
  induction l with
  | nil => simp [List.lookup] at h
  | cons e rest ih =>
    obtain ⟨k', v'⟩ := e
    by_cases hk : k = k'
    · subst hk
      simp [List.lookup] at h
      subst h
      exact List.mem_cons_self _ _
    · have hb : (k == k') = false := beq_eq_false_iff_ne.mpr hk
      simp [List.lookup, hb] at h
      exact List.mem_cons_of_mem _ (ih h)

theorem lookup_eq_some_of_mem_of_nodup {β : Type} {l : List (String × β)} {k : String} {v : β}
    (hn : (l.map Prod.fst).Nodup) (hm : (k, v) ∈ l) : List.lookup k l = some v := by
  induction l with
  | nil => simp at hm
  | cons e rest ih =>
    obtain ⟨k', v'⟩ := e
    rw [List.map_cons] at hn
    obtain ⟨h1, h2⟩ := List.nodup_cons.mp hn
    rcases List.mem_cons.mp hm with h | h
    · cases h
      simp [List.lookup]
    · have hk : k ≠ k' := by
        intro he
        subst he
        exact h1 (List.mem_map.mpr ⟨(k, v), h, rfl⟩)
      have hb : (k == k') = false := beq_eq_false_iff_ne.mpr hk
      simp only [List.lookup, hb]
      exact ih h2 h

theorem mem_insertDescBy (key : ConversationData → String) (x d : ConversationData)
    (l : List ConversationData) : d ∈ insertDescBy key x l ↔ d = x ∨ d ∈ l := by
  induction l with
  | nil => simp [insertDescBy]
  | cons y ys ih =>
    simp only [insertDescBy]
    split
    · rw [List.mem_cons, ih, List.mem_cons]
      tauto
    · exact List.mem_cons

theorem mem_sortByKeyDesc (key : ConversationData → String) (l : List ConversationData)
    (d : ConversationData) : d ∈ sortByKeyDesc key l ↔ d ∈ l := by
  have haux : ∀ (l acc : List ConversationData),
      d ∈ l.foldl (fun acc x => insertDescBy key x acc) acc ↔ d ∈ acc ∨ d ∈ l := by
    intro l
    induction l with
    | nil => simp
    | cons x xs ih =>
      intro acc
      rw [List.foldl_cons, ih, mem_insertDescBy]
      simp only [List.mem_cons]
      tauto
  rw [sortByKeyDesc, haux]
  simp

namespace FS

theorem filterStep_eq_some (st : Storage) (x : String) (v : LoadedValue) :
    (match load_conversation st x with
      | Except.error _ => none
      | Except.ok none => none
      | Except.ok (some w) => if w.pyTruthy then some w else none) = some v
    ↔ load_conversation st x = Except.ok (some v) ∧ v.pyTruthy = true := by
  cases h : load_conversation st x with
  | error u => simp
  | ok ov =>
    cases ov with
    | none => simp
    | some w =>
      by_cases ht : w.pyTruthy = true
      · simp only [if_pos ht, Option.some.injEq, Except.ok.injEq]
        constructor
        · intro hw
          subst hw
          exact ⟨rfl, ht⟩
        · rintro ⟨h1, h2⟩
          exact h1
      · simp only [if_neg ht]
        constructor
        · intro hw
          exact Option.noConfusion hw
        · rintro ⟨h1, h2⟩
          injection h1 with h1
          injection h1 with h1
          subst h1
          exact absurd h2 ht

theorem mem_loadedValues (st : Storage) (v : LoadedValue) :
    v ∈ loadedValues st ↔
    ∃ e ∈ st, load_conversation st e.1 = Except.ok (some v) ∧ v.pyTruthy = true := by
  unfold loadedValues
  rw [List.mem_filterMap]
  constructor
  · rintro ⟨e, he, hf⟩
    exact ⟨e, he, (filterStep_eq_some st e.1 v).mp hf⟩
  · rintro ⟨e, he, h1, h2⟩
    exact ⟨e, he, (filterStep_eq_some st e.1 v).mpr ⟨h1, h2⟩⟩

theorem load_eq_record_iff (st : Storage) (x : String) (d : ConversationData) :
    load_conversation st x = Except.ok (some (LoadedValue.record d)) ↔
    List.lookup x st = some (FileContent.record d) := by
  unfold load_conversation
  cases hlk : List.lookup x st with
  | none => simp
  | some c => cases c <;> simp

theorem load_eq_junk_iff (st : Storage) (x : String) (t : Bool) :
    load_conversation st x = Except.ok (some (LoadedValue.junk t)) ↔
    List.lookup x st = some (FileContent.badShape t) := by
  unfold load_conversation
  cases hlk : List.lookup x st with
  | none => simp
  | some c => cases c <;> simp

end FS

theorem load_setEntry_ok (st : Storage) (cid : String) (d : ConversationData) :
    load_conversation (setEntry st cid (Except.ok d)) cid = some d := by
  unfold load_conversation
  rw [lookup_setEntry_self]

theorem load_setEntry_ne (st : Storage) (cid cid' : String) (c : Except Unit ConversationData)
    (h : cid' ≠ cid) :
    load_conversation (setEntry st cid c) cid' = load_conversation st cid' := by
  unfold load_conversation
  rw [lookup_setEntry_ne _ _ _ _ h]

/-! ## Helper lemmas about the response collector -/

theorem collectLoop_skip (pre : List ResponseUnit) (rest : List ResponseUnit) (count : Nat)
    (parts : List String)
    (hpre : ∀ v ∈ pre, hasContent v = false ∧ isTerminal v = false)
    (hcount : count + pre.length ≤ 9) :
    collectLoop (pre ++ rest) count parts false
      = collectLoop rest (count + pre.length) parts false := by
  induction pre generalizing count with
  | nil => simp
  | cons u pre' ih =>
    have hu := hpre u (List.mem_cons_self u pre')
    have hrest : ∀ v ∈ pre', hasContent v = false ∧ isTerminal v = false :=
      fun v hv => hpre v (List.mem_cons_of_mem u hv)
    have hlen : count + 1 + pre'.length ≤ 9 := by
      simp only [List.length_cons] at hcount
      omega
    have hparts : unitTexts u = [] := by
      have h1 := hu.1
      unfold hasContent at h1
      simpa using h1
    rw [List.cons_append]
    simp only [collectLoop]
    rw [if_neg (by rw [hu.2]; exact Bool.false_ne_true)]
    rw [if_neg (by rw [hu.1]; simp; omega)]
    rw [hparts, List.append_nil, hu.1, Bool.or_false]
    rw [ih (count + 1) hrest hlen]
    congr 1
    simp only [List.length_cons]
    omega

theorem collectLoop_count_le (units : List ResponseUnit) (count : Nat) (parts : List String)
    (complete : Bool) (h : count ≤ 9) : (collectLoop units count parts complete).2 ≤ 10 := by
  induction units generalizing count parts complete with
  | nil =>
    simp only [collectLoop]
    omega
  | cons u rest ih =>
    simp only [collectLoop]
    split
    · simp
      omega
    · split
      · simp
        omega
      · rename_i h1 h2
        push_neg at h2
        exact ih _ _ _ (by omega)

/-! ## Helper lemmas about sanitisation -/

theorem head?_dropWhile_dash (l : List Char) :
    (l.dropWhile (· == '-')).head? ≠ some '-' := by
  induction l with
  | nil => simp
  | cons c t ih =>
    rw [List.dropWhile_cons]
    by_cases h : (c == '-') = true
    · rw [if_pos h]
      exact ih
    · rw [if_neg h]
      have hc : c ≠ '-' := by simpa using h
      simp [hc]

theorem getLast?_dropWhile {α : Type} (p : α → Bool) (l : List α)
    (h : l.dropWhile p ≠ []) : (l.dropWhile p).getLast? = l.getLast? := by
  induction l with
  | nil => simp at h
  | cons c t ih =>
    by_cases hp : p c = true
    · rw [List.dropWhile_cons_of_pos hp] at h ⊢
      rw [ih h]
      have ht : t ≠ [] := by
        intro he
        rw [he] at h
        simp at h
      cases t with
      | nil => exact absurd rfl ht
      | cons b t' => simp [List.getLast?_cons_cons]
    · rw [List.dropWhile_cons_of_neg hp]

theorem toLower_isUpper_false (c : Char) : (Char.toLower c).isUpper = false := by
  have hval : ∀ d : Char, d.isUpper = decide (65 ≤ d.toNat ∧ d.toNat ≤ 90) := by
    intro d
    simp [Char.isUpper, UInt32.le_def, BitVec.le_def, Char.toNat]
    rfl
  rw [hval]
  unfold Char.toLower
  by_cases h : c.toNat ≥ 65 ∧ c.toNat ≤ 90
  · rw [if_pos h]
    have hv : (c.toNat + 32).isValidChar := Or.inl (by omega)
    have hn : (Char.ofNat (c.toNat + 32)).toNat = c.toNat + 32 := by
      rw [Char.ofNat, dif_pos hv]
      rfl
    simp only [hn, decide_eq_false_iff_not]
    omega
  · rw [if_neg h]
    simp only [decide_eq_false_iff_not]
    omega

theorem sanitiseChar_class (x : Char) :
    (sanitiseChar x).isAlphanum = true ∨ sanitiseChar x = '-' := by
  unfold sanitiseChar
  by_cases h : (x.isAlphanum || x == '-') = true
  · rw [if_pos h]
    rcases (by simpa using h : x.isAlphanum = true ∨ x = '-') with h1 | h1
    · exact Or.inl h1
    · exact Or.inr h1
  · rw [if_neg h]
    exact Or.inr rfl

theorem sanitiseChar_isUpper_false (x : Char) (hx : x.isUpper = false) :
    (sanitiseChar x).isUpper = false := by
  unfold sanitiseChar
  split
  · exact hx
  · decide

/-! ## Claim C1: response collector termination -/

/-- C1: the Response Collector drains units in order and stops at the first
unit carrying non-empty text or a terminal status marker (returning that
unit's accumulated text), stops after the cap of 10 units otherwise, and
never drains more than 10 units; in particular the stream
`[text("a"), text("b"), terminal(success)]` yields exactly `"a"` and the
stream `[terminal(success)]` alone yields `""` without error, in both the
`manager.py` and the `c2c_dev.py` variant of the loop. -/
theorem c1_response_collector :
    collectResponse [textUnit "a", textUnit "b", terminalUnit "success"] = "a" ∧
    collectResponse [terminalUnit "success"] = "" ∧
    collectResponseDev [textUnit "a", textUnit "b", terminalUnit "success"] = "a" ∧
    collectResponseDev [terminalUnit "success"] = "" ∧
    (∀ pre u post, (∀ v ∈ pre, hasContent v = false ∧ isTerminal v = false) →
      pre.length ≤ 9 → (hasContent u = true ∨ isTerminal u = true) →
      collectResponse (pre ++ u :: post) = String.join (unitTexts u)) ∧
    (∀ pre u post, (∀ v ∈ pre, hasContent v = false ∧ isTerminal v = false) →
      pre.length = 9 → hasContent u = false → isTerminal u = false →
      collectResponse (pre ++ u :: post) = "" ∧ unitsDrained (pre ++ u :: post) = 10) ∧
    (∀ stream, unitsDrained stream ≤ 10) := by
  refine ⟨by decide, by decide, by decide, by decide, ?_, ?_, ?_⟩
  · intro pre u post hpre hlen hcu
    unfold collectResponse
    rw [collectLoop_skip pre (u :: post) 0 [] hpre (by omega)]
    simp only [Nat.zero_add]
    simp only [collectLoop]
    by_cases ht : isTerminal u = true
    · rw [if_pos ht]
      simp
    · rw [if_neg ht]
      have hc : hasContent u = true := hcu.resolve_right ht
      rw [if_pos (Or.inl (by rw [hc, Bool.or_true]))]
      simp
  · intro pre u post hpre hlen hcu htu
    have hparts : unitTexts u = [] := by
      unfold hasContent at hcu
      simpa using hcu
    constructor
    · unfold collectResponse
      rw [collectLoop_skip pre (u :: post) 0 [] hpre (by omega)]
      simp only [Nat.zero_add, hlen]
      simp only [collectLoop]
      rw [if_neg (by rw [htu]; exact Bool.false_ne_true)]
      rw [if_pos (Or.inr (by omega))]
      simp [hparts, String.join]
    · unfold unitsDrained
      rw [collectLoop_skip pre (u :: post) 0 [] hpre (by omega)]
      simp only [Nat.zero_add, hlen]
      simp only [collectLoop]
      rw [if_neg (by rw [htu]; exact Bool.false_ne_true)]
      rw [if_pos (Or.inr (by omega))]
  · intro stream
    exact collectLoop_count_le stream 0 [] false (by omega)

/-- Witness for C1: a stream whose first unit is contentless, whose second
carries text and whose third is terminal is collected to exactly the second
unit's text. -/
theorem c1_response_collector_witness :
    collectResponse
        ([plainUnit] ++ textUnit "Null pointer in parser" :: [terminalUnit "success"])
      = String.join (unitTexts (textUnit "Null pointer in parser")) :=
  c1_response_collector.2.2.2.2.1 [plainUnit] (textUnit "Null pointer in parser")
    [terminalUnit "success"] (by decide) (by decide) (by decide)

/-! ## Claim C2: identifier uniqueness -/

/-- C2 counterexample: identifier generation performs no collision retry —
`create_conversation` builds `conv_{name}_{uuid4().hex[:8]}` without ever
consulting the registry — so two create calls whose random draws coincide
return the same identifier, refuting unconditional pairwise
distinctness. -/
theorem c2_identifier_counterexample :
    ¬ (create_ids ["Fix Bug", "Fix Bug"] ["00000000", "00000000"]).Nodup := by
  decide

/-- C2 amended: identifiers returned by successive create calls are
pairwise distinct provided the drawn 8-character random suffixes are
pairwise distinct (regardless of the task names, colliding or not). -/
theorem c2_identifier_uniqueness :
    ∀ n₁ n₂ s₁ s₂ : String, s₁.length = 8 → s₂.length = 8 → s₁ ≠ s₂ →
      conversation_id n₁ s₁ ≠ conversation_id n₂ s₂ := by
  intro n₁ n₂ s₁ s₂ h₁ h₂ hne heq
  apply hne
  have hd := congrArg String.data heq
  simp only [conversation_id, String.data_append] at hd
  have hlen : s₁.data.length = s₂.data.length := by
    have e1 : s₁.data.length = 8 := h₁
    have e2 : s₂.data.length = 8 := h₂
    omega
  exact String.ext (List.append_inj' hd hlen).2

/-- Witness for C2: distinct suffixes give distinct identifiers even for
identical task names. -/
theorem c2_identifier_uniqueness_witness :
    conversation_id "Fix Bug" "00000000" ≠ conversation_id "Fix Bug" "00000001" :=
  c2_identifier_uniqueness "Fix Bug" "Fix Bug" "00000000" "00000001" rfl rfl (by decide)

/-! ## Claim C3: sanitisation -/

/-- C3 counterexample: sanitisation replaces each non-alphanumeric
character by its own separator — it does not collapse runs: the name
`"Fix  Bug"` (two spaces) sanitises to `"fix--bug"`, which contains an
uncollapsed separator run. -/
theorem c3_sanitise_counterexample :
    sanitiseTaskName "Fix  Bug" = "fix--bug" ∧
    hasSeparatorRun (sanitiseTaskName "Fix  Bug") = true := by
  constructor
  · decide
  · decide

/-- C3 amended: sanitisation lower-cases the name and replaces every
character that is neither alphanumeric nor `'-'` by one separator each
(runs are preserved, not collapsed), then strips leading and trailing
separators; every character of the result is alphanumeric or the
separator, never an upper-case letter, and
`create("Fix Bug", ...)` yields the identifier `conv_fix-bug_` followed by
the 8-character random draw. -/
theorem c3_sanitise_shape :
    (∀ uuid8, conversation_id "Fix Bug" uuid8 = "conv_fix-bug_" ++ uuid8) ∧
    (∀ name, (sanitiseTaskName name).data.head? ≠ some '-' ∧
      (sanitiseTaskName name).data.getLast? ≠ some '-') ∧
    (∀ name c, c ∈ (sanitiseTaskName name).data →
      (c.isAlphanum = true ∨ c = '-') ∧ c.isUpper = false) ∧
    sanitiseTaskName "Fix  Bug" = "fix--bug" := by
  refine ⟨?_, ?_, ?_, by decide⟩
  · intro uuid8
    unfold conversation_id
    rw [show sanitiseTaskName "Fix Bug" = "fix-bug" from by decide]
    rfl
  · intro name
    unfold sanitiseTaskName stripDash
    constructor
    · rw [show ∀ l : List Char, (String.mk l).data = l from fun _ => rfl]
      rw [List.head?_reverse]
      by_cases hB :
          ((name.data.map fun c => sanitiseChar c.toLower).dropWhile
            (· == '-')).reverse.dropWhile (· == '-') = []
      · rw [hB]
        simp
      · rw [getLast?_dropWhile _ _ hB, List.getLast?_reverse]
        exact head?_dropWhile_dash _
    · rw [show ∀ l : List Char, (String.mk l).data = l from fun _ => rfl]
      rw [List.getLast?_reverse]
      exact head?_dropWhile_dash _
  · intro name c hc
    unfold sanitiseTaskName stripDash at hc
    rw [show ∀ l : List Char, (String.mk l).data = l from fun _ => rfl] at hc
    have hc₁ : c ∈ (name.data.map fun x => sanitiseChar x.toLower) := by
      have s₁ : ((name.data.map fun x => sanitiseChar x.toLower).dropWhile (· == '-'))
          ⊆ (name.data.map fun x => sanitiseChar x.toLower) :=
        List.Sublist.subset (List.dropWhile_sublist _)
      have s₂ : (((name.data.map fun x => sanitiseChar x.toLower).dropWhile
            (· == '-')).reverse.dropWhile (· == '-'))
          ⊆ ((name.data.map fun x => sanitiseChar x.toLower).dropWhile (· == '-')).reverse :=
        List.Sublist.subset (List.dropWhile_sublist _)
      rw [List.mem_reverse] at hc
      exact s₁ (List.mem_reverse.mp (s₂ hc))
    obtain ⟨a, _, ha⟩ := List.mem_map.mp hc₁
    subst ha
    exact ⟨sanitiseChar_class _, sanitiseChar_isUpper_false _ (toLower_isUpper_false a)⟩

/-- Witness for C3: the character class statement evaluated on a character
of the sanitised documented example name. -/
theorem c3_sanitise_shape_witness :
    ('f'.isAlphanum = true ∨ 'f' = '-') ∧ 'f'.isUpper = false :=
  c3_sanitise_shape.2.2.1 "Fix Bug" 'f' (by decide)

/-! ## Claim C4: rate limiter -/

/-- C4: when a send is issued less than `MIN_MESSAGE_INTERVAL` after the
conversation's last recorded send, the gate sleeps for exactly the
remaining deficit and the backend submission happens exactly at
`last + MIN_MESSAGE_INTERVAL`; the gate never rejects (its wait is always
defined and non-negative); the new timestamp recorded for the conversation
is the instant taken after the gate and the internal send, never before;
and the timestamps and gates of other conversations are untouched. -/
theorem c4_rate_limiter :
    (∀ (ts : String → Option ℚ) sid t last d, ts sid = some last →
      t - last < MIN_MESSAGE_INTERVAL →
      rateLimitWait ts sid t = MIN_MESSAGE_INTERVAL - (t - last) ∧
      (send_message_timing ts sid t d).1 = last + MIN_MESSAGE_INTERVAL) ∧
    (∀ (ts : String → Option ℚ) sid t, 0 ≤ rateLimitWait ts sid t) ∧
    (∀ (ts : String → Option ℚ) sid t d,
      (send_message_timing ts sid t d).2 sid = some ((send_message_timing ts sid t d).1 + d)) ∧
    (∀ (ts : String → Option ℚ) sid t d s, s ≠ sid →
      (send_message_timing ts sid t d).2 s = ts s) ∧
    (∀ (ts : String → Option ℚ) sid t d s t', s ≠ sid →
      rateLimitWait ((send_message_timing ts sid t d).2) s t' = rateLimitWait ts s t') := by
  refine ⟨?_, ?_, ?_, ?_, ?_⟩
  · intro ts sid t last d hts hlt
    have hwait : rateLimitWait ts sid t = MIN_MESSAGE_INTERVAL - (t - last) := by
      unfold rateLimitWait
      rw [hts]
      simp only [Option.getD_some]
      rw [if_pos hlt]
    refine ⟨hwait, ?_⟩
    show t + rateLimitWait ts sid t = last + MIN_MESSAGE_INTERVAL
    rw [hwait]
    ring
  · intro ts sid t
    show (0 : ℚ) ≤
      if t - (ts sid).getD 0 < MIN_MESSAGE_INTERVAL then
        MIN_MESSAGE_INTERVAL - (t - (ts sid).getD 0)
      else 0
    split
    · rename_i hlt
      linarith [hlt]
    · exact le_refl 0
  · intro ts sid t d
    simp [send_message_timing]
  · intro ts sid t d s hs
    simp [send_message_timing, hs]
  · intro ts sid t d s t' hs
    unfold rateLimitWait
    simp [send_message_timing, hs]

/-- Witness for C4: a second send one time unit after the first sleeps for
the one-unit deficit and submits at `last + MIN_MESSAGE_INTERVAL`. -/
theorem c4_rate_limiter_witness :
    rateLimitWait (fun s => if s = "c2c-00000000" then some 10 else none) "c2c-00000000" 11
      = MIN_MESSAGE_INTERVAL - (11 - 10) ∧
    (send_message_timing (fun s => if s = "c2c-00000000" then some 10 else none)
        "c2c-00000000" 11 1).1
      = 10 + MIN_MESSAGE_INTERVAL :=
  c4_rate_limiter.1 (fun s => if s = "c2c-00000000" then some 10 else none)
    "c2c-00000000" 11 10 1 (by simp) (by norm_num [MIN_MESSAGE_INTERVAL])

/-! ## Claim C5: atomic history update -/

/-- C5: `send_message_and_receive_response` updates the history atomically
with respect to failure: when the worker task fails the registry is
unchanged (neither turn recorded); when it succeeds with a non-empty
message both the user turn and the assistant turn are appended; and in the
documented empty-message skip only the assistant turn is appended. -/
theorem c5_send_atomic_history :
    ∀ active conv_id msg conv ts_u ts_a,
      List.lookup conv_id active = some conv →
      (∀ e : String,
        (send_message_and_receive_response active conv_id msg (Except.error e) ts_u ts_a).1
          = active) ∧
      (∀ r : String, hasVisibleText msg = true →
        List.lookup conv_id
            (send_message_and_receive_response active conv_id msg (Except.ok r) ts_u ts_a).1
          = some ⟨conv.task_name, conv.task_description,
              conv.history ++ [⟨"user", msg, ts_u⟩, ⟨"assistant", r, ts_a⟩], conv.status⟩) ∧
      (∀ r : String, hasVisibleText msg = false →
        List.lookup conv_id
            (send_message_and_receive_response active conv_id msg (Except.ok r) ts_u ts_a).1
          = some ⟨conv.task_name, conv.task_description,
              conv.history ++ [⟨"assistant", r, ts_a⟩], conv.status⟩) := by
  intro active conv_id msg conv ts_u ts_a hl
  refine ⟨?_, ?_, ?_⟩
  · intro e
    simp [send_message_and_receive_response, hl]
  · intro r hm
    simp only [send_message_and_receive_response, hl, hm, if_true]
    rw [lookup_setEntry_self]
    simp
  · intro r hm
    simp only [send_message_and_receive_response, hm]
    rw [hl]
    simp only [Bool.false_eq_true, if_false]
    rw [lookup_setEntry_self]

/-- Witness for C5: a successful send of `"hi"` appends exactly the user
turn and the assistant turn to the stored conversation. -/
theorem c5_send_atomic_history_witness :
    List.lookup "conv_x_00000000"
        (send_message_and_receive_response
          [("conv_x_00000000", ⟨"x", "d", [], "active"⟩)]
          "conv_x_00000000" "hi" (Except.ok "done") "t1" "t2").1
      = some ⟨"x", "d", [⟨"user", "hi", "t1"⟩, ⟨"assistant", "done", "t2"⟩], "active"⟩ :=
  (c5_send_atomic_history [("conv_x_00000000", ⟨"x", "d", [], "active"⟩)]
    "conv_x_00000000" "hi" ⟨"x", "d", [], "active"⟩ "t1" "t2" (by simp [List.lookup])).2.1
    "done" (by decide)

/-! ## Claim C6: ending a conversation -/

/-- C6 evaluation at the failing input: when `client.disconnect()` hangs
past the 10-second bound, `end_conversation` reports the timeout error but
the session id is still present in the registry afterwards — the
`asyncio.CancelledError` raised by `wait_for`'s cancellation bypasses the
`except Exception` force-cleanup clause.  An ordinary internal exception,
by contrast, does force-remove the entry, as does the success path. -/
theorem c6_end_timeout_retains_entry :
    (end_conversation ["c2c-00000000"] "c2c-00000000" DisconnectOutcome.hangs).1
        = ["c2c-00000000"] ∧
    (end_conversation ["c2c-00000000"] "c2c-00000000" DisconnectOutcome.hangs).2
        = Except.error "Conversation ending timed out after 10 seconds" ∧
    (end_conversation ["c2c-00000000"] "c2c-00000000" DisconnectOutcome.raises).1 = [] ∧
    (end_conversation ["c2c-00000000"] "c2c-00000000" DisconnectOutcome.ok).1 = [] := by
  refine ⟨rfl, rfl, rfl, rfl⟩

/-! ## Claim C7: reopening a completed conversation -/

/-- C7: adding a message to a stored conversation whose status is
`"completed"` flips the stored status back to `"active"`, while a
conversation in any other status keeps its status unchanged; the operation
reports success in both cases. -/
theorem c7_reopen_on_add_message :
    ∀ st conv_id role msg uuid8 now d,
      load_conversation st conv_id = some d →
      (add_message_to_conversation st conv_id role msg uuid8 now).2 = true ∧
      (d.metadata.status = "completed" →
        Option.map (fun x => x.metadata.status)
            (load_conversation
              (add_message_to_conversation st conv_id role msg uuid8 now).1 conv_id)
          = some "active") ∧
      (d.metadata.status ≠ "completed" →
        Option.map (fun x => x.metadata.status)
            (load_conversation
              (add_message_to_conversation st conv_id role msg uuid8 now).1 conv_id)
          = some d.metadata.status) := by
  intro st conv_id role msg uuid8 now d hload
  refine ⟨?_, ?_, ?_⟩
  · simp [add_message_to_conversation, hload]
  · intro hs
    have hb : (d.metadata.status == "completed") = true := beq_iff_eq.mpr hs
    simp only [add_message_to_conversation, hload]
    rw [load_setEntry_ok]
    simp [hb]
  · intro hs
    have hb : (d.metadata.status == "completed") = false := beq_eq_false_iff_ne.mpr hs
    simp only [add_message_to_conversation, hload]
    rw [load_setEntry_ok]
    simp [hb]

/-- Witness for C7: a completed stored conversation becomes active again
when a message is added. -/
theorem c7_reopen_on_add_message_witness :
    Option.map (fun x => x.metadata.status)
        (load_conversation
          (add_message_to_conversation
            [("conv_abc", Except.ok
              ⟨⟨"conv_abc", "s", "t0", "t0", 1, "task", "completed"⟩,
               [⟨"user", "hi", "t0", none⟩]⟩)]
            "conv_abc" "agent" "done" "00000000" "t1").1 "conv_abc")
      = some "active" :=
  ((c7_reopen_on_add_message
      [("conv_abc", Except.ok
        ⟨⟨"conv_abc", "s", "t0", "t0", 1, "task", "completed"⟩,
         [⟨"user", "hi", "t0", none⟩]⟩)]
      "conv_abc" "agent" "done" "00000000" "t1"
      ⟨⟨"conv_abc", "s", "t0", "t0", 1, "task", "completed"⟩,
       [⟨"user", "hi", "t0", none⟩]⟩ (by decide)).2.1 (by decide))

/-! ## Claim C8: storage invariants -/

/-- Invariant: the stored `message_count` equals the length of the stored
message list. -/
def messageCountInvariant (d : ConversationData) : Prop :=
  d.metadata.message_count = d.messages.length

/-- Invariant over a whole storage state: every loadable record satisfies
the message-count invariant. -/
def storageInvariant (st : Storage) : Prop :=
  ∀ cid d, load_conversation st cid = some d → messageCountInvariant d

/-- C8: each store operation (save, add-message, status update) preserves
the invariant that `message_count` equals the length of the stored message
list, and on every record `last_updated` is monotonically non-decreasing
across each operation, provided the clock reading passed to the operation
is not before the record's current `last_updated`. -/
theorem c8_storage_invariants :
    (∀ st uuid12 sid msgs task status now, storageInvariant st →
      storageInvariant (save_conversation st uuid12 sid msgs task status now).2) ∧
    (∀ st cid role msg uuid8 now, storageInvariant st →
      storageInvariant (add_message_to_conversation st cid role msg uuid8 now).1) ∧
    (∀ st cid status now, storageInvariant st →
      storageInvariant (update_conversation_status st cid status now).1) ∧
    (∀ st uuid12 sid msgs task status now cid d₀ d₁,
      load_conversation st cid = some d₀ →
      d₀.metadata.last_updated ≤ now →
      load_conversation (save_conversation st uuid12 sid msgs task status now).2 cid
        = some d₁ →
      d₀.metadata.last_updated ≤ d₁.metadata.last_updated) ∧
    (∀ st cidw role msg uuid8 now cid d₀ d₁,
      load_conversation st cid = some d₀ →
      d₀.metadata.last_updated ≤ now →
      load_conversation (add_message_to_conversation st cidw role msg uuid8 now).1 cid
        = some d₁ →
      d₀.metadata.last_updated ≤ d₁.metadata.last_updated) ∧
    (∀ st cidw status now cid d₀ d₁,
      load_conversation st cid = some d₀ →
      d₀.metadata.last_updated ≤ now →
      load_conversation (update_conversation_status st cidw status now).1 cid = some d₁ →
      d₀.metadata.last_updated ≤ d₁.metadata.last_updated) := by
  refine ⟨?_, ?_, ?_, ?_, ?_, ?_⟩
  · intro st uuid12 sid msgs task status now hinv
    unfold storageInvariant
    intro cid d hload
    simp only [save_conversation] at hload
    by_cases hc : cid = "conv_" ++ uuid12
    · subst hc
      rw [load_setEntry_ok] at hload
      have hd := Option.some.inj hload
      subst hd
      unfold messageCountInvariant
      rfl
    · rw [load_setEntry_ne _ _ _ _ hc] at hload
      exact hinv cid d hload
  · intro st cid role msg uuid8 now hinv
    unfold storageInvariant
    intro cid' d' hload'
    cases hld : load_conversation st cid with
    | none =>
      rw [show (add_message_to_conversation st cid role msg uuid8 now).1 = st from by
        simp [add_message_to_conversation, hld]] at hload'
      exact hinv cid' d' hload'
    | some d =>
      simp only [add_message_to_conversation, hld] at hload'
      by_cases hc : cid' = cid
      · subst hc
        rw [load_setEntry_ok] at hload'
        have hd := Option.some.inj hload'
        subst hd
        unfold messageCountInvariant
        rfl
      · rw [load_setEntry_ne _ _ _ _ hc] at hload'
        exact hinv cid' d' hload'
  · intro st cid status now hinv
    unfold storageInvariant
    intro cid' d' hload'
    cases hld : load_conversation st cid with
    | none =>
      rw [show (update_conversation_status st cid status now).1 = st from by
        simp [update_conversation_status, hld]] at hload'
      exact hinv cid' d' hload'
    | some d =>
      simp only [update_conversation_status, hld] at hload'
      by_cases hc : cid' = cid
      · subst hc
        rw [load_setEntry_ok] at hload'
        have hd := Option.some.inj hload'
        subst hd
        unfold messageCountInvariant
        exact hinv _ d hld
      · rw [load_setEntry_ne _ _ _ _ hc] at hload'
        exact hinv cid' d' hload'
  · intro st uuid12 sid msgs task status now cid d₀ d₁ h0 hle h1
    simp only [save_conversation] at h1
    by_cases hc : cid = "conv_" ++ uuid12
    · subst hc
      rw [load_setEntry_ok] at h1
      have hd := Option.some.inj h1
      subst hd
      exact hle
    · rw [load_setEntry_ne _ _ _ _ hc] at h1
      rw [h0] at h1
      have hd := Option.some.inj h1
      subst hd
      exact le_refl _
  · intro st cidw role msg uuid8 now cid d₀ d₁ h0 hle h1
    cases hld : load_conversation st cidw with
    | none =>
      rw [show (add_message_to_conversation st cidw role msg uuid8 now).1 = st from by
        simp [add_message_to_conversation, hld]] at h1
      rw [h0] at h1
      have hd := Option.some.inj h1
      subst hd
      exact le_refl _
    | some dW =>
      simp only [add_message_to_conversation, hld] at h1
      by_cases hc : cid = cidw
      · subst hc
        rw [load_setEntry_ok] at h1
        have hd := Option.some.inj h1
        subst hd
        exact hle
      · rw [load_setEntry_ne _ _ _ _ hc] at h1
        rw [h0] at h1
        have hd := Option.some.inj h1
        subst hd
        exact le_refl _
  · intro st cidw status now cid d₀ d₁ h0 hle h1
    cases hld : load_conversation st cidw with
    | none =>
      rw [show (update_conversation_status st cidw status now).1 = st from by
        simp [update_conversation_status, hld]] at h1
      rw [h0] at h1
      have hd := Option.some.inj h1
      subst hd
      exact le_refl _
    | some dW =>
      simp only [update_conversation_status, hld] at h1
      by_cases hc : cid = cidw
      · subst hc
        rw [load_setEntry_ok] at h1
        have hd := Option.some.inj h1
        subst hd
        exact hle
      · rw [load_setEntry_ne _ _ _ _ hc] at h1
        rw [h0] at h1
        have hd := Option.some.inj h1
        subst hd
        exact le_refl _

/-- Witness for C8: adding a message at a clock reading equal to a
record's `last_updated` does not decrease its `last_updated`. -/
theorem c8_storage_invariants_witness :
    ("t0" : String) ≤ "t0" :=
  c8_storage_invariants.2.2.2.2.1
    [("conv_abc", Except.ok
      ⟨⟨"conv_abc", "s", "t0", "t0", 1, "task", "active"⟩,
       [⟨"user", "hi", "t0", none⟩]⟩)]
    "conv_abc" "agent" "done" "00000000" "t0" "conv_abc"
    ⟨⟨"conv_abc", "s", "t0", "t0", 1, "task", "active"⟩, [⟨"user", "hi", "t0", none⟩]⟩
    ⟨⟨"conv_abc", "s", "t0", "t0", 2, "task", "active"⟩,
     [⟨"user", "hi", "t0", none⟩, ⟨"agent", "done", "t0", some "msg_00000000"⟩]⟩
    (by decide) (le_refl _) (by decide)

/-! ## Claim C9: save/load round trip -/

/-- C9: saving a conversation and loading the identifier returned by save
reproduces exactly the metadata and message list that were written, field
for field: the generated id, the session id, the `created_at` derived from
the first message (or the save instant for an empty list), the save
instant as `last_updated`, the message count, the initial task, the
status, and the messages with all their fields. -/
theorem c9_save_load_round_trip :
    ∀ st uuid12 sid msgs task status now,
      load_conversation (save_conversation st uuid12 sid msgs task status now).2
          (save_conversation st uuid12 sid msgs task status now).1
        = some ⟨⟨"conv_" ++ uuid12, sid,
            (match msgs.head? with | some m => m.timestamp | none => now),
            now, msgs.length, task, status⟩, msgs⟩ := by
  intro st uuid12 sid msgs task status now
  simp only [save_conversation]
  exact load_setEntry_ok _ _ _

/-! ## Claim C10: load totality and listing of bad records -/

/-- C10 counterexample: `load_conversation` is not total — on a file whose
bytes do not decode as UTF-8 (hence contents that are not valid JSON) the
uncaught `UnicodeDecodeError` propagates instead of returning `None`; and
`list_conversations` does not silently omit every bad record — a file
holding truthy valid JSON of the wrong shape is appended and then crashes
the sort's `x["metadata"]["last_updated"]` key lookup, which runs outside
the per-file `try`. -/
theorem c10_load_total_counterexample :
    FS.load_conversation [("conv_bad", FileContent.badBytes)] "conv_bad"
        = Except.error () ∧
    FS.list_conversations [("conv_junk", FileContent.badShape true)]
        = Except.error () := by
  exact ⟨rfl, rfl⟩

/-- C10 amended: `load_conversation` returns `None` when the record file
does not exist and when its text fails to parse as JSON
(`json.JSONDecodeError` is caught), but raises on a file whose bytes do
not decode as UTF-8; `list_conversations` never fails when no file parses
to a truthy non-record value — silently omitting missing, undecodable and
unparseable files — and whenever it returns, its result contains exactly
the well-formed stored records. -/
theorem c10_load_and_list_refined :
    (∀ (st : FS.Storage) cid, List.lookup cid st = none →
      FS.load_conversation st cid = Except.ok none) ∧
    (∀ (st : FS.Storage) cid, List.lookup cid st = some FileContent.badJson →
      FS.load_conversation st cid = Except.ok none) ∧
    (∀ (st : FS.Storage) cid, List.lookup cid st = some FileContent.badBytes →
      FS.load_conversation st cid = Except.error ()) ∧
    (∀ st : FS.Storage, (∀ cid, (cid, FileContent.badShape true) ∉ st) →
      ∃ l, FS.list_conversations st = Except.ok l) ∧
    (∀ (st : FS.Storage) (d : ConversationData) (l : List ConversationData),
      (st.map Prod.fst).Nodup → FS.list_conversations st = Except.ok l →
      (d ∈ l ↔ ∃ cid, (cid, FileContent.record d) ∈ st)) := by
  refine ⟨?_, ?_, ?_, ?_, ?_⟩
  · intro st cid h
    unfold FS.load_conversation
    rw [h]
  · intro st cid h
    unfold FS.load_conversation
    rw [h]
  · intro st cid h
    unfold FS.load_conversation
    rw [h]
  · intro st hjunk
    by_cases hany : (FS.loadedValues st).any FS.LoadedValue.isJunk = true
    · exfalso
      obtain ⟨v, hv, hjv⟩ := List.any_eq_true.mp hany
      cases v with
      | record d => simp [FS.LoadedValue.isJunk] at hjv
      | junk t =>
        obtain ⟨e, he, h1, h2⟩ := (FS.mem_loadedValues st _).mp hv
        have ht : t = true := by simpa [FS.LoadedValue.pyTruthy] using h2
        subst ht
        have hlk := (FS.load_eq_junk_iff st e.1 true).mp h1
        exact hjunk e.1 (mem_of_lookup_eq_some hlk)
    · refine ⟨sortByKeyDesc (fun d => d.metadata.last_updated)
        ((FS.loadedValues st).filterMap FS.LoadedValue.toRecord), ?_⟩
      unfold FS.list_conversations
      rw [if_neg hany]
  · intro st d l hn hl
    by_cases hany : (FS.loadedValues st).any FS.LoadedValue.isJunk = true
    · exfalso
      unfold FS.list_conversations at hl
      rw [if_pos hany] at hl
      exact Except.noConfusion hl
    · unfold FS.list_conversations at hl
      rw [if_neg hany] at hl
      injection hl with hl
      subst hl
      rw [mem_sortByKeyDesc, List.mem_filterMap]
      constructor
      · rintro ⟨v, hv, htr⟩
        cases v with
        | record d' =>
          have hd : d' = d := by simpa [FS.LoadedValue.toRecord] using htr
          subst hd
          obtain ⟨e, he, h1, h2⟩ := (FS.mem_loadedValues st _).mp hv
          have hlk := (FS.load_eq_record_iff st e.1 d').mp h1
          exact ⟨e.1, mem_of_lookup_eq_some hlk⟩
        | junk t =>
          simp [FS.LoadedValue.toRecord] at htr
      · rintro ⟨cid, hmem⟩
        refine ⟨FS.LoadedValue.record d, ?_, rfl⟩
        apply (FS.mem_loadedValues st _).mpr
        refine ⟨(cid, FileContent.record d), hmem, ?_, rfl⟩
        exact (FS.load_eq_record_iff st cid d).mpr (lookup_eq_some_of_mem_of_nodup hn hmem)

/-- Witness for C10: a directory with one well-formed record and one
unparseable file lists exactly the well-formed record. -/
theorem c10_load_and_list_refined_witness :
    (⟨⟨"conv_good", "s", "t0", "t0", 0, "t", "active"⟩, []⟩ : ConversationData)
        ∈ [(⟨⟨"conv_good", "s", "t0", "t0", 0, "t", "active"⟩, []⟩ : ConversationData)] ↔
    ∃ cid,
      (cid, FileContent.record ⟨⟨"conv_good", "s", "t0", "t0", 0, "t", "active"⟩, []⟩)
        ∈ [("conv_good",
             FileContent.record ⟨⟨"conv_good", "s", "t0", "t0", 0, "t", "active"⟩, []⟩),
           ("conv_text", FileContent.badJson)] :=
  c10_load_and_list_refined.2.2.2.2
    [("conv_good", FileContent.record ⟨⟨"conv_good", "s", "t0", "t0", 0, "t", "active"⟩, []⟩),
     ("conv_text", FileContent.badJson)]
    ⟨⟨"conv_good", "s", "t0", "t0", 0, "t", "active"⟩, []⟩
    [⟨⟨"conv_good", "s", "t0", "t0", 0, "t", "active"⟩, []⟩]
    (by decide) rfl

end C2C
